import Mathlib

/-!
# Verification of the horas time-tracking core

Shallow embedding of the duration/value calculation and report aggregation
of the `horas_GPT` repository (server storage layer in `server/storage.ts`,
route helpers in `server/routes.ts`, schema in `shared/schema.ts`).

JavaScript numbers are modelled as `Option ℚ` (`JSNum`), where `none` plays
the role of `NaN`: every arithmetic operation propagates `none`, exactly as
JS arithmetic propagates `NaN`.  The minutes-since-midnight stage of the
source only ever produces integers (it multiplies and adds the integer
results of `Number` on the colon-split fields of an `HH:MM` string), so that
stage is modelled as `Option ℤ` (`JSIntNum`); the value becomes a general
rational at the division by 60.  All quantities appearing here (integer
minutes, decimal rates, their sums and products) are exactly representable
as JS doubles are decimal fractions, so ℚ is a faithful carrier.
-/

/-- A JavaScript number: `none` is `NaN`, `some q` a finite numeric value. -/
abbrev JSNum := Option ℚ

/-- A JavaScript number known to be integral (the minutes-since-midnight
stage): `none` is `NaN`. -/
abbrev JSIntNum := Option ℤ

/-- JS `+` on integral numbers: `NaN` propagates. -/
def jaddM : JSIntNum → JSIntNum → JSIntNum
  | some a, some b => some (a + b)
  | _, _ => none

/-- JS `-` on integral numbers: `NaN` propagates. -/
def jsubM : JSIntNum → JSIntNum → JSIntNum
  | some a, some b => some (a - b)
  | _, _ => none

/-- JS `*` on integral numbers: `NaN` propagates. -/
def jmulM : JSIntNum → JSIntNum → JSIntNum
  | some a, some b => some (a * b)
  | _, _ => none

/-- JS `+` on numbers: `NaN` propagates. -/
def jadd : JSNum → JSNum → JSNum
  | some a, some b => some (a + b)
  | _, _ => none

/-- JS `-` on numbers: `NaN` propagates. -/
def jsub : JSNum → JSNum → JSNum
  | some a, some b => some (a - b)
  | _, _ => none

/-- JS `*` on numbers: `NaN` propagates. -/
def jmul : JSNum → JSNum → JSNum
  | some a, some b => some (a * b)
  | _, _ => none

/-- JS `x / 60` applied to an integral minute count (the divisor in the
source is the constant 60): `NaN` propagates. -/
def jdiv60 : JSIntNum → JSNum
  | some a => some ((a : ℚ) / 60)
  | none => none

/-- JS `Math.max(0, x)`.  `Math.max(0, NaN)` is `NaN`. -/
def jmax0 : JSNum → JSNum
  | some a => some (max 0 a)
  | none => none

/-- JS `String.prototype.split(sep)` on the underlying character list. -/
def splitChars (sep : Char) : List Char → List (List Char)
  | [] => [[]]
  | c :: cs =>
    if c = sep then [] :: splitChars sep cs
    else
      match splitChars sep cs with
      | [] => [[c]]
      | p :: ps => (c :: p) :: ps

/-- JS `s.split(sep)`. -/
def jsSplit (s : String) (sep : Char) : List String :=
  (splitChars sep s.toList).map (fun l => String.mk l)

/-- Value of a non-empty all-digit character list, `none` otherwise. -/
def digitsToNat? : List Char → Option Nat
  | [] => none
  | cs =>
    cs.foldl
      (fun acc c =>
        match acc with
        | none => none
        | some n => if c.isDigit then some (n * 10 + (c.toNat - 48)) else none)
      (some 0)

/-- JS `Number(s)` on the strings this code base feeds to it (the
colon-split fields of an `HH:MM` value): the empty string converts to `0`,
a string of decimal digits to its (integral) value, anything else to `NaN`. -/
def jsNumber (s : String) : JSIntNum :=
  if s = "" then some 0 else (digitsToNat? s.toList).map (fun n => (n : ℤ))

/-- String-level stage of `parseFloat`: integer part, and optionally the
fractional digits' value with their count. -/
def parseDecimal (s : String) : Option (ℕ × Option (ℕ × ℕ)) :=
  match splitChars '.' s.toList with
  | [a] => (digitsToNat? a).map (fun n => (n, none))
  | [a, b] =>
    match digitsToNat? a with
    | none => none
    | some n =>
      -- a trailing dot as in `"142."` still parses (`parseFloat("142.") = 142`)
      if b = [] then some (n, none)
      else (digitsToNat? b).map (fun m => (n, some (m, b.length)))
  | _ => none

/-- JS `parseFloat(s)` on the strings this code base feeds to it (decimal
rate / hours strings such as `"142.00"`): `d+` or `d+.d*` parses to its
value, anything else (in particular the empty string) to `NaN`. -/
def jsParseFloat (s : String) : JSNum :=
  match parseDecimal s with
  | some (n, none) => some (n : ℚ)
  | some (n, some (m, k)) => some ((n : ℚ) + (m : ℚ) / ((10 : ℚ) ^ k))
  | none => none

/-- JS truthiness of an optional string (`undefined`, `null` and `""` are falsy). -/
def strTruthy : Option String → Bool
  | some s => s ≠ ""
  | none => false

/-- JS truthiness of an optional number holding an id (`undefined`, `null`
and `0` are falsy). -/
def natTruthy : Option Nat → Bool
  | some n => n ≠ 0
  | none => false

/-- JS `x || undefined` / `x || null` on an optional string: an empty
string is normalised away. -/
def orNull : Option String → Option String
  | some s => if s = "" then none else some s
  | none => none

/-- `DatabaseStorage.timeToMinutes` (also the inline conversion in
`MemStorage.calculateHoursAndValue`):
`const [hours, minutes] = time.split(':').map(Number); return hours*60+minutes;`.
A missing destructured component is `undefined`, and arithmetic on
`undefined` yields `NaN`, which `none` models. -/
def timeToMinutes (time : String) : JSIntNum :=
  let parts := jsSplit time ':'
  let hours : JSIntNum :=
    match parts[0]? with
    | some s => jsNumber s
    | none => none
  let minutes : JSIntNum :=
    match parts[1]? with
    | some s => jsNumber s
    | none => none
  jaddM (jmulM hours (some 60)) minutes

/-- `MemStorage.calculateHoursAndValue`: minutes-since-midnight difference,
optional break subtraction, clamp at zero (`Math.max(0, totalMinutes / 60)`),
then `hours * parseFloat(hourlyRate)`. -/
def calculateHoursAndValue (startTime endTime hourlyRate : String)
    (breakStartTime breakEndTime : Option String) : JSNum × JSNum :=
  let startMinutes := timeToMinutes startTime
  let endMinutes := timeToMinutes endTime
  let totalMinutes := jsubM endMinutes startMinutes
  let totalMinutes :=
    if strTruthy breakStartTime && strTruthy breakEndTime then
      let breakStartMinutes := timeToMinutes (breakStartTime.getD "")
      let breakEndMinutes := timeToMinutes (breakEndTime.getD "")
      jsubM totalMinutes (jsubM breakEndMinutes breakStartMinutes)
    else totalMinutes
  let hours := jmax0 (jdiv60 totalMinutes)
  let value := jmul hours (jsParseFloat hourlyRate)
  (hours, value)

/-- `DatabaseStorage.calculateHours`: same minute arithmetic but **no**
clamp — the raw `workMinutes / 60` is returned, negative or not. -/
def calculateHours (startTime endTime : String)
    (breakStartTime breakEndTime : Option String) : JSNum :=
  let start := timeToMinutes startTime
  let e := timeToMinutes endTime
  let workMinutes := jsubM e start
  let workMinutes :=
    if strTruthy breakStartTime && strTruthy breakEndTime then
      jsubM workMinutes
        (jsubM (timeToMinutes (breakEndTime.getD ""))
          (timeToMinutes (breakStartTime.getD "")))
    else workMinutes
  jdiv60 workMinutes


/-! ## Data model (from `shared/schema.ts`) -/

/-- A `clients` row (only the fields the embedded logic reads). -/
structure Client where
  id : Nat
  code : String
  name : String
  cnpj : String
  email : String

/-- A `services` row.  `hourlyRate` is a decimal string, as in the schema. -/
structure Service where
  id : Nat
  code : String
  clientId : Nat
  description : String
  hourlyRate : String

/-- A `time_entries` row.  `totalHours` / `totalValue` are stored as decimal
strings in the source (`hours.toString()`) and re-read with `parseFloat`;
since `parseFloat(x.toString()) = x` for every JS number (including `NaN`),
the embedding carries their numeric value directly as a `JSNum`. -/
structure TimeEntry where
  id : Nat
  date : String
  consultantId : Nat
  clientId : Nat
  serviceId : Nat
  sectorId : Option Nat
  serviceTypeId : Option Nat
  projectId : Option Nat
  startTime : String
  endTime : String
  breakStartTime : Option String
  breakEndTime : Option String
  description : Option String
  totalHours : JSNum
  totalValue : JSNum
  activityCompleted : Option String
  deliveryForecast : Option String
  actualDelivery : Option String
  serviceLocation : Option String

/-- `InsertTimeEntry` (`insertTimeEntrySchema` = all `time_entries` columns
minus `id`, `totalHours`, `totalValue`). -/
structure InsertTimeEntry where
  date : String
  consultantId : Nat
  clientId : Nat
  serviceId : Nat
  sectorId : Option Nat
  serviceTypeId : Option Nat
  projectId : Option Nat
  startTime : String
  endTime : String
  breakStartTime : Option String
  breakEndTime : Option String
  description : Option String
  activityCompleted : Option String
  deliveryForecast : Option String
  actualDelivery : Option String
  serviceLocation : Option String

/-- `Partial<InsertTimeEntry>`: every field may be absent (outer `none`);
nullable columns additionally distinguish an explicit `null`
(inner `none`). -/
structure UpdateTimeEntry where
  date : Option String := none
  consultantId : Option Nat := none
  clientId : Option Nat := none
  serviceId : Option Nat := none
  sectorId : Option (Option Nat) := none
  serviceTypeId : Option (Option Nat) := none
  projectId : Option (Option Nat) := none
  startTime : Option String := none
  endTime : Option String := none
  breakStartTime : Option (Option String) := none
  breakEndTime : Option (Option String) := none
  description : Option (Option String) := none
  activityCompleted : Option (Option String) := none
  deliveryForecast : Option (Option String) := none
  actualDelivery : Option (Option String) := none
  serviceLocation : Option (Option String) := none

/-- JS truthiness of a possibly-absent, possibly-null string field. -/
def strFieldTruthy : Option (Option String) → Bool
  | some o => strTruthy o
  | none => false

/-- JS `x || y` for a possibly-absent string against a string default. -/
def jsOrStr : Option String → String → String
  | some s, d => if s = "" then d else s
  | none, d => d

/-- JS `x || y` for a possibly-absent id against an id default (`0` is falsy). -/
def jsOrNat : Option Nat → Nat → Nat
  | some n, d => if n = 0 then d else n
  | none, d => d

/-- JS `x || y` for a possibly-absent, possibly-null string field against a
possibly-null default (`undefined`, `null` and `""` all select the default). -/
def jsOrOptStr : Option (Option String) → Option String → Option String
  | some (some s), d => if s = "" then d else some s
  | some none, d => d
  | none, d => d

/-- JS `x || null` on a possibly-absent id (`0` normalises to `null`). -/
def orNullNat : Option Nat → Option Nat
  | some n => if n = 0 then none else some n
  | none => none

/-- The object-spread merge `{ ...timeEntry, ...updateData }` (also the
column set written by `db.update(...).set(updateData)`): fields present in
the update replace the entry's, all others — in particular `totalHours` and
`totalValue`, which `Partial<InsertTimeEntry>` cannot contain — are kept. -/
def applyUpdate (e : TimeEntry) (u : UpdateTimeEntry) : TimeEntry :=
  { e with
    date := u.date.getD e.date
    consultantId := u.consultantId.getD e.consultantId
    clientId := u.clientId.getD e.clientId
    serviceId := u.serviceId.getD e.serviceId
    sectorId := u.sectorId.getD e.sectorId
    serviceTypeId := u.serviceTypeId.getD e.serviceTypeId
    projectId := u.projectId.getD e.projectId
    startTime := u.startTime.getD e.startTime
    endTime := u.endTime.getD e.endTime
    breakStartTime := u.breakStartTime.getD e.breakStartTime
    breakEndTime := u.breakEndTime.getD e.breakEndTime
    description := u.description.getD e.description
    activityCompleted := u.activityCompleted.getD e.activityCompleted
    deliveryForecast := u.deliveryForecast.getD e.deliveryForecast
    actualDelivery := u.actualDelivery.getD e.actualDelivery
    serviceLocation := u.serviceLocation.getD e.serviceLocation }

/-! ## `MemStorage` (in-memory maps, modelled as association lists in
insertion order, plus the id counter) -/

structure MemState where
  clients : List (Nat × Client)
  services : List (Nat × Service)
  timeEntries : List (Nat × TimeEntry)
  currentTimeEntryId : Nat

/-- `Map.get` on an association list. -/
def mapGet {α : Type} (m : List (Nat × α)) (k : Nat) : Option α :=
  (m.find? (fun p => p.1 == k)).map (·.2)

/-- `Map.set` on an association list (overwrite if present, append if new). -/
def mapSet {α : Type} (m : List (Nat × α)) (k : Nat) (v : α) : List (Nat × α) :=
  if (m.find? (fun p => p.1 == k)).isSome then
    m.map (fun p => if p.1 == k then (k, v) else p)
  else m ++ [(k, v)]

/-- `MemStorage.createTimeEntry`.  Throws `"Service not found"` before any
mutation when the service id is absent; otherwise computes the derived
fields, assigns `currentTimeEntryId++` and stores the entry.  The second
component is the storage state after the call. -/
def memCreateTimeEntry (s : MemState) (ie : InsertTimeEntry) :
    Except String TimeEntry × MemState :=
  match mapGet s.services ie.serviceId with
  | none => (.error "Service not found", s)
  | some service =>
    let hv := calculateHoursAndValue ie.startTime ie.endTime service.hourlyRate
      (orNull ie.breakStartTime) (orNull ie.breakEndTime)
    let id := s.currentTimeEntryId
    let timeEntry : TimeEntry :=
      { id := id
        date := ie.date
        consultantId := ie.consultantId
        clientId := ie.clientId
        serviceId := ie.serviceId
        sectorId := orNullNat ie.sectorId
        serviceTypeId := orNullNat ie.serviceTypeId
        projectId := orNullNat ie.projectId
        startTime := ie.startTime
        endTime := ie.endTime
        description := orNull ie.description
        breakStartTime := orNull ie.breakStartTime
        breakEndTime := orNull ie.breakEndTime
        activityCompleted := orNull ie.activityCompleted
        deliveryForecast := orNull ie.deliveryForecast
        actualDelivery := orNull ie.actualDelivery
        serviceLocation := orNull ie.serviceLocation
        totalHours := hv.1
        totalValue := hv.2 }
    (.ok timeEntry,
      { s with
        timeEntries := mapSet s.timeEntries id timeEntry
        currentTimeEntryId := s.currentTimeEntryId + 1 })

/-- `MemStorage.updateTimeEntry`: merge the update into the entry; if
`startTime`, `endTime` or `serviceId` is (truthily) present, recompute the
derived fields — note the recomputation passes **no break times** and that
break-time-only updates trigger no recomputation at all. -/
def memUpdateTimeEntry (s : MemState) (id : Nat) (u : UpdateTimeEntry) :
    Option TimeEntry × MemState :=
  match mapGet s.timeEntries id with
  | none => (none, s)
  | some timeEntry =>
    let updatedEntry := applyUpdate timeEntry u
    if strTruthy u.startTime || strTruthy u.endTime || natTruthy u.serviceId then
      let serviceId := jsOrNat u.serviceId timeEntry.serviceId
      match mapGet s.services serviceId with
      | none => (none, s)
      | some service =>
        let startTime := jsOrStr u.startTime timeEntry.startTime
        let endTime := jsOrStr u.endTime timeEntry.endTime
        let hv := calculateHoursAndValue startTime endTime service.hourlyRate none none
        let updatedEntry := { updatedEntry with totalHours := hv.1, totalValue := hv.2 }
        (some updatedEntry, { s with timeEntries := mapSet s.timeEntries id updatedEntry })
    else
      (some updatedEntry, { s with timeEntries := mapSet s.timeEntries id updatedEntry })

/-! ## `DatabaseStorage` (the database is abstracted as lookup functions /
row lists passed in) -/

/-- `DatabaseStorage.createTimeEntry`: look the service up (throwing
`"Service not found"` when absent), compute `calculateHours` and
`totalHours * parseFloat(service.hourlyRate)`, and insert the row (`nextId`
stands for the serial id the database assigns). -/
def dbCreateTimeEntry (getService : Nat → Option Service) (nextId : Nat)
    (ie : InsertTimeEntry) : Except String TimeEntry :=
  match getService ie.serviceId with
  | none => .error "Service not found"
  | some service =>
    let totalHours := calculateHours ie.startTime ie.endTime ie.breakStartTime ie.breakEndTime
    let totalValue := jmul totalHours (jsParseFloat service.hourlyRate)
    .ok
      { id := nextId
        date := ie.date
        consultantId := ie.consultantId
        clientId := ie.clientId
        serviceId := ie.serviceId
        sectorId := ie.sectorId
        serviceTypeId := ie.serviceTypeId
        projectId := ie.projectId
        startTime := ie.startTime
        endTime := ie.endTime
        breakStartTime := ie.breakStartTime
        breakEndTime := ie.breakEndTime
        description := ie.description
        activityCompleted := ie.activityCompleted
        deliveryForecast := ie.deliveryForecast
        actualDelivery := ie.actualDelivery
        serviceLocation := ie.serviceLocation
        totalHours := totalHours
        totalValue := totalValue }

/-- `DatabaseStorage.updateTimeEntry`: when any of the five trigger fields
is (truthily) present, re-read the entry, resolve the service (throwing
`"Service not found"` when absent), recompute the derived fields from the
merged time fields — this time **including** the break pair — and write
`{ ...updateData, totalHours, totalValue }`; otherwise write `updateData`
alone, leaving `totalHours` / `totalValue` untouched.  `.ok none` models the
`undefined` result for a missing entry. -/
def dbUpdateTimeEntry (getEntry : Nat → Option TimeEntry)
    (getService : Nat → Option Service) (id : Nat) (u : UpdateTimeEntry) :
    Except String (Option TimeEntry) :=
  if strTruthy u.startTime || strTruthy u.endTime ||
      strFieldTruthy u.breakStartTime || strFieldTruthy u.breakEndTime ||
      natTruthy u.serviceId then
    match getEntry id with
    | none => .ok none
    | some existing =>
      let serviceId := jsOrNat u.serviceId existing.serviceId
      match getService serviceId with
      | none => .error "Service not found"
      | some service =>
        let startTime := jsOrStr u.startTime existing.startTime
        let endTime := jsOrStr u.endTime existing.endTime
        let breakStartTime := jsOrOptStr u.breakStartTime existing.breakStartTime
        let breakEndTime := jsOrOptStr u.breakEndTime existing.breakEndTime
        let totalHours := calculateHours startTime endTime breakStartTime breakEndTime
        let totalValue := jmul totalHours (jsParseFloat service.hourlyRate)
        .ok (some { applyUpdate existing u with totalHours := totalHours, totalValue := totalValue })
  else
    .ok ((getEntry id).map (fun e => applyUpdate e u))

/-! ## Route helpers (`server/routes.ts`) -/

/-- Minutes since midnight of `new Date("2000-01-01T" ++ t)`: the date part
is constant and cancels in every difference the source takes, so only the
minute count is kept.  The ISO parse demands two two-digit fields with
`HH < 24` and `MM < 60`; anything else is an `Invalid Date`, whose
`getTime()` is `NaN`. -/
def isoTimeToMinutes (t : String) : JSIntNum :=
  match jsSplit t ':' with
  | [h, m] =>
    if h.length = 2 ∧ m.length = 2 then
      match digitsToNat? h.toList, digitsToNat? m.toList with
      | some hv, some mv =>
        if hv < 24 ∧ mv < 60 then some ((hv : ℤ) * 60 + (mv : ℤ)) else none
      | _, _ => none
    else none
  | _ => none

/-- `calculateEntryHours` in `server/routes.ts`: difference of the two
`Date` timestamps divided down to hours, minus the break difference when a
break pair is (truthily) present.  No clamp. -/
def calculateEntryHours (startTime endTime : String)
    (breakStartTime breakEndTime : Option String) : JSNum :=
  let hours := jdiv60 (jsubM (isoTimeToMinutes endTime) (isoTimeToMinutes startTime))
  if strTruthy breakStartTime && strTruthy breakEndTime then
    jsub hours
      (jdiv60 (jsubM (isoTimeToMinutes (breakEndTime.getD ""))
        (isoTimeToMinutes (breakStartTime.getD ""))))
  else hours

/-- JS `x || 0` applied to a number: `NaN` (and `0` itself) yield `0`. -/
def jsOrZero : JSNum → ℚ
  | some r => if r = 0 then 0 else r
  | none => 0

/-- `calculateEntryValue` in `server/routes.ts`:
`hours * (parseFloat(entry.service.hourlyRate) || 0)` — an unparsable or
absent rate is **silently replaced by `0`** instead of failing. -/
def calculateEntryValue (startTime endTime : String)
    (breakStartTime breakEndTime : Option String) (hourlyRate : String) : JSNum :=
  let hours := calculateEntryHours startTime endTime breakStartTime breakEndTime
  jmul hours (some (jsOrZero (jsParseFloat hourlyRate)))

/-! ## `insertTimeEntrySchema` (`shared/schema.ts`) -/

/-- A raw request body for a time entry, before validation: every field may
be absent. -/
structure RawTimeEntry where
  date : Option String := none
  consultantId : Option Nat := none
  clientId : Option Nat := none
  serviceId : Option Nat := none
  sectorId : Option Nat := none
  serviceTypeId : Option Nat := none
  projectId : Option Nat := none
  startTime : Option String := none
  endTime : Option String := none
  breakStartTime : Option String := none
  breakEndTime : Option String := none
  description : Option String := none
  activityCompleted : Option String := none
  deliveryForecast : Option String := none
  actualDelivery : Option String := none
  serviceLocation : Option String := none

/-- `insertTimeEntrySchema.parse`: `createInsertSchema(timeEntries)` maps
each **not-null** column to a required field of the matching primitive type
and each nullable column to an optional one, then `id`, `totalHours` and
`totalValue` are omitted.  The time columns are plain `text`, so their
fields are bare `z.string()`: **no `HH:MM` format constraint exists**. -/
def insertTimeEntrySchemaParse (r : RawTimeEntry) : Except String InsertTimeEntry :=
  match r.date, r.consultantId, r.clientId, r.serviceId, r.startTime, r.endTime with
  | some date, some consultantId, some clientId, some serviceId, some startTime, some endTime =>
    .ok
      { date := date
        consultantId := consultantId
        clientId := clientId
        serviceId := serviceId
        sectorId := r.sectorId
        serviceTypeId := r.serviceTypeId
        projectId := r.projectId
        startTime := startTime
        endTime := endTime
        breakStartTime := r.breakStartTime
        breakEndTime := r.breakEndTime
        description := r.description
        activityCompleted := r.activityCompleted
        deliveryForecast := r.deliveryForecast
        actualDelivery := r.actualDelivery
        serviceLocation := r.serviceLocation }
  | _, _, _, _, _, _ => .error "Required"

/-! ## Report aggregation (`getReportData` in both storages) -/

/-- The filter argument of `getReportData`. -/
structure ReportFilters where
  startDate : Option String := none
  endDate : Option String := none
  clientId : Option Nat := none
  consultantId : Option Nat := none

/-- One element of `clientBreakdown`. -/
structure ClientGroup where
  clientId : Nat
  clientName : String
  hours : JSNum
  value : JSNum
  entries : Nat

/-- The result record of `getReportData`. -/
structure ReportData where
  totalHours : JSNum
  totalValue : JSNum
  totalEntries : Nat
  totalClients : Nat
  clientBreakdown : List ClientGroup

/-- JS `reduce((sum, e) => sum + parseFloat(...), 0)` over the stored
numeric values (`parseFloat` of the stored decimal string is the stored
`JSNum` itself, `NaN` included). -/
def jsum (l : List JSNum) : JSNum := l.foldl jadd (some 0)

/-- `new Set(xs)` materialised in insertion order (first occurrences),
exactly as JS `Set` iteration yields it. -/
def jsDedup : List Nat → List Nat
  | [] => []
  | x :: xs => x :: jsDedup (xs.filter (fun y => y ≠ x))
termination_by l => l.length
decreasing_by
  simp only [List.length_cons]
  exact Nat.lt_succ_of_le (xs.length_filter_le _)

/-- The four truthiness-guarded filters of `getReportData` (identical in
both implementations: date comparisons are string comparisons / SQL `gte` /
`lte` on the ISO strings). -/
def entryMatchesFilters (f : ReportFilters) (e : TimeEntry) : Bool :=
  (!strTruthy f.startDate || decide ((f.startDate.getD "") ≤ e.date)) &&
  (!strTruthy f.endDate || decide (e.date ≤ (f.endDate.getD ""))) &&
  (!natTruthy f.clientId || e.clientId == f.clientId.getD 0) &&
  (!natTruthy f.consultantId || e.consultantId == f.consultantId.getD 0)

/-- `MemStorage.getReportData` over the stored entries (map values in
insertion order): filter, grand totals, first-occurrence client ids, a
breakdown that **skips** client ids absent from the `clients` map, and a
sort by descending group value. -/
def memGetReportData (s : MemState) (f : ReportFilters) : ReportData :=
  let filteredEntries := (s.timeEntries.map (·.2)).filter (entryMatchesFilters f)
  let totalHours := jsum (filteredEntries.map (·.totalHours))
  let totalValue := jsum (filteredEntries.map (·.totalValue))
  let totalEntries := filteredEntries.length
  let clientIds := jsDedup (filteredEntries.map (·.clientId))
  let totalClients := clientIds.length
  let clientBreakdown := clientIds.filterMap (fun cid =>
    match mapGet s.clients cid with
    | none => none
    | some client =>
      let clientEntries := filteredEntries.filter (fun e => e.clientId == cid)
      some
        { clientId := cid
          clientName := client.name
          hours := jsum (clientEntries.map (·.totalHours))
          value := jsum (clientEntries.map (·.totalValue))
          entries := clientEntries.length })
  let clientBreakdown :=
    clientBreakdown.mergeSort (fun a b => decide (jsOrZero b.value ≤ jsOrZero a.value))
  { totalHours := totalHours
    totalValue := totalValue
    totalEntries := totalEntries
    totalClients := totalClients
    clientBreakdown := clientBreakdown }

/-- A row of the `timeEntries ⟕ clients` join used by
`DatabaseStorage.getReportData`: the entry plus the joined client's name
(`none` when no client row matched). -/
structure DBRow where
  te : TimeEntry
  clientName : Option String

/-- `entry.clients?.name || 'Unknown'` on the first row of a group. -/
def groupName : Option DBRow → String
  | some r =>
    match r.clientName with
    | some n => if n = "" then "Unknown" else n
    | none => "Unknown"
  | none => "Unknown"

/-- `DatabaseStorage.getReportData` over the joined rows: same filters and
grand totals, but the breakdown keeps **every** distinct client id, naming
a group after its first row's joined client (or `'Unknown'`). -/
def dbGetReportData (rows : List DBRow) (f : ReportFilters) : ReportData :=
  let entries := rows.filter (fun r => entryMatchesFilters f r.te)
  let totalHours := jsum (entries.map (·.te.totalHours))
  let totalValue := jsum (entries.map (·.te.totalValue))
  let totalEntries := entries.length
  let uniqueClients := jsDedup (entries.map (·.te.clientId))
  let totalClients := uniqueClients.length
  let clientBreakdown := uniqueClients.map (fun cid =>
    let clientEntries := entries.filter (fun r => r.te.clientId == cid)
    { clientId := cid
      clientName := groupName clientEntries[0]?
      hours := jsum (clientEntries.map (·.te.totalHours))
      value := jsum (clientEntries.map (·.te.totalValue))
      entries := clientEntries.length : ClientGroup })
  let clientBreakdown :=
    clientBreakdown.mergeSort (fun a b => decide (jsOrZero b.value ≤ jsOrZero a.value))
  { totalHours := totalHours
    totalValue := totalValue
    totalEntries := totalEntries
    totalClients := totalClients
    clientBreakdown := clientBreakdown }


/-! ## Concrete sample inputs used in counterexamples and witnesses -/

/-- A service with hourly rate `"100"`. -/
def svc100 : Service := ⟨1, "S1", 1, "svc", "100"⟩

/-- A service with hourly rate `"142.00"`. -/
def svc142 : Service := ⟨7, "S7", 1, "svc", "142.00"⟩

/-- A stored entry: `08:00`–`17:00` with break `12:00`–`13:00` for client 1,
derived fields consistent at rate `"100"` (8 h, value 800). -/
def entryBreak : TimeEntry :=
  { id := 5, date := "2024-05-01", consultantId := 2, clientId := 1, serviceId := 1
    sectorId := none, serviceTypeId := none, projectId := none
    startTime := "08:00", endTime := "17:00"
    breakStartTime := some "12:00", breakEndTime := some "13:00"
    description := none, totalHours := some 8, totalValue := some 800
    activityCompleted := none, deliveryForecast := none, actualDelivery := none
    serviceLocation := none }

/-- A second stored entry for client 2: `08:30`–`16:30`, no break, 8 h at
rate `"142.00"` (value 1136). -/
def entryPlain : TimeEntry :=
  { id := 6, date := "2024-05-02", consultantId := 3, clientId := 2, serviceId := 7
    sectorId := none, serviceTypeId := none, projectId := none
    startTime := "08:30", endTime := "16:30"
    breakStartTime := none, breakEndTime := none
    description := none, totalHours := some 8, totalValue := some 1136
    activityCompleted := none, deliveryForecast := none, actualDelivery := none
    serviceLocation := none }

/-- A `MemStorage` state holding `entryBreak` under id 5 and `svc100` under
id 1, with an **empty clients map** and id counter 6. -/
def memS0 : MemState := ⟨[], [(1, svc100)], [(5, entryBreak)], 6⟩

/-- A `MemStorage` state with no services at all. -/
def memEmpty : MemState := ⟨[], [], [], 1⟩

/-- A raw request body whose `startTime` is the malformed string `"abc"`. -/
def rawAbc : RawTimeEntry :=
  { date := some "2024-05-01", consultantId := some 2, clientId := some 1
    serviceId := some 7, startTime := some "abc", endTime := some "17:00" }

/-- The insert data `insertTimeEntrySchemaParse` produces from `rawAbc`. -/
def ieAbc : InsertTimeEntry :=
  { date := "2024-05-01", consultantId := 2, clientId := 1, serviceId := 7
    sectorId := none, serviceTypeId := none, projectId := none
    startTime := "abc", endTime := "17:00"
    breakStartTime := none, breakEndTime := none
    description := none, activityCompleted := none, deliveryForecast := none
    actualDelivery := none, serviceLocation := none }

/-- A service lookup resolving id 7 to `svc142`. -/
def getSvc7 : Nat → Option Service := fun i => if i = 7 then some svc142 else none

/-- An entry lookup resolving id 5 to `entryBreak`. -/
def getEntry5 : Nat → Option TimeEntry := fun i => if i = 5 then some entryBreak else none

/-- An update touching only the `date` field. -/
def updDateOnly : UpdateTimeEntry := { date := some "2024-06-01" }

/-- An update touching only the `endTime` field (to `18:00`). -/
def updEnd18 : UpdateTimeEntry := { endTime := some "18:00" }


/-! ## Helper lemmas -/

theorem jadd_some_zero (x : JSNum) : jadd (some 0) x = x := by
  cases x <;> simp [jadd]

theorem jadd_zero_right (x : JSNum) : jadd x (some 0) = x := by
  cases x <;> simp [jadd]

theorem jadd_comm (a b : JSNum) : jadd a b = jadd b a := by
  cases a <;> cases b <;> simp [jadd, add_comm]

theorem jadd_assoc (a b c : JSNum) : jadd (jadd a b) c = jadd a (jadd b c) := by
  cases a <;> cases b <;> cases c <;> simp [jadd, add_assoc]

theorem jadd_left_comm (a b c : JSNum) : jadd a (jadd b c) = jadd b (jadd a c) := by
  rw [← jadd_assoc, jadd_comm a b, jadd_assoc]

theorem foldl_jadd (l : List JSNum) : ∀ x : JSNum, l.foldl jadd x = jadd x (jsum l) := by
  induction l with
  | nil => intro x; simp [jsum, jadd_zero_right]
  | cons y l ih =>
    intro x
    have h2 : jsum (y :: l) = jadd y (jsum l) := by
      rw [jsum, List.foldl_cons, jadd_some_zero, ih y]
    rw [List.foldl_cons, ih (jadd x y), h2, jadd_assoc]

theorem jsum_cons (x : JSNum) (l : List JSNum) : jsum (x :: l) = jadd x (jsum l) := by
  rw [jsum, List.foldl_cons, jadd_some_zero, foldl_jadd]

theorem jsum_perm {l₁ l₂ : List JSNum} (h : l₁.Perm l₂) : jsum l₁ = jsum l₂ := by
  induction h with
  | nil => rfl
  | cons x _ ih => rw [jsum_cons, jsum_cons, ih]
  | swap x y l => rw [jsum_cons, jsum_cons, jsum_cons, jsum_cons, jadd_left_comm]
  | trans _ _ ih₁ ih₂ => exact ih₁.trans ih₂

theorem mem_jsDedup {a : Nat} : ∀ {l : List Nat}, a ∈ jsDedup l ↔ a ∈ l := by
  intro l
  induction l using jsDedup.induct with
  | case1 => simp [jsDedup]
  | case2 x xs ih =>
    rw [jsDedup]
    by_cases hax : a = x
    · subst hax; simp
    · simp only [List.mem_cons, hax, false_or, ih, List.mem_filter]
      constructor
      · exact fun h => h.1
      · exact fun h => ⟨h, by simpa using hax⟩

theorem nodup_jsDedup : ∀ (l : List Nat), (jsDedup l).Nodup := by
  intro l
  induction l using jsDedup.induct with
  | case1 => simp [jsDedup]
  | case2 x xs ih =>
    rw [jsDedup]
    refine List.nodup_cons.2 ⟨fun hmem => ?_, ih⟩
    have := (mem_jsDedup.1 hmem)
    simp [List.mem_filter] at this

theorem jsDedup_perm {l₁ l₂ : List Nat} (h : l₁.Perm l₂) :
    (jsDedup l₁).Perm (jsDedup l₂) :=
  (List.perm_ext_iff_of_nodup (nodup_jsDedup l₁) (nodup_jsDedup l₂)).2
    (fun a => by rw [mem_jsDedup, mem_jsDedup]; exact ⟨fun hm => h.mem_iff.1 hm, fun hm => h.mem_iff.2 hm⟩)

theorem filterMap_congr_some {α β : Type} (g : α → Option β) (h : α → β) :
    ∀ (l : List α), (∀ a ∈ l, g a = some (h a)) → l.filterMap g = l.map h := by
  intro l
  induction l with
  | nil => intro _; rfl
  | cons x l ih =>
    intro hall
    rw [List.filterMap_cons, hall x (List.mem_cons_self x l), List.map_cons,
      ih (fun a ha => hall a (List.mem_cons_of_mem x ha))]

theorem jsum_map_ite {ks : List Nat} {k : Nat} (hk : k ∈ ks) (hnd : ks.Nodup)
    (a : JSNum) (g : Nat → JSNum) :
    jsum (ks.map (fun c => if c = k then jadd a (g c) else g c)) =
      jadd a (jsum (ks.map g)) := by
  induction ks with
  | nil => cases hk
  | cons y ys ih =>
    rcases List.nodup_cons.1 hnd with ⟨hy, hys⟩
    by_cases hyk : y = k
    · subst hyk
      have hmap : ys.map (fun c => if c = y then jadd a (g c) else g c) = ys.map g :=
        List.map_congr_left (fun c hc => by
          have : c ≠ y := fun hcy => hy (hcy ▸ hc)
          simp [this])
      rw [List.map_cons, List.map_cons, jsum_cons, jsum_cons, hmap, if_pos rfl, jadd_assoc]
    · have hk' : k ∈ ys := by
        rcases List.mem_cons.1 hk with h | h
        · exact absurd h.symm hyk
        · exact h
      rw [List.map_cons, List.map_cons, jsum_cons, jsum_cons, if_neg hyk, ih hk' hys,
        jadd_left_comm]

theorem jsum_map_const_zero : ∀ (ks : List Nat),
    jsum (ks.map (fun _ => (some 0 : JSNum))) = some 0 := by
  intro ks
  induction ks with
  | nil => rfl
  | cons y ys ih => rw [List.map_cons, jsum_cons, ih, jadd_zero_right]

theorem jsum_fiberwise {α : Type} (key : α → Nat) (f : α → JSNum) :
    ∀ (l : List α) (ks : List Nat), ks.Nodup → (∀ x ∈ l, key x ∈ ks) →
    jsum (ks.map (fun c => jsum ((l.filter (fun x => key x == c)).map f))) =
      jsum (l.map f) := by
  intro l
  induction l with
  | nil =>
    intro ks _ _
    simpa using jsum_map_const_zero ks
  | cons x l ih =>
    intro ks hnd hcov
    have hx : key x ∈ ks := hcov x (List.mem_cons_self x l)
    have hstep : ks.map (fun c => jsum (((x :: l).filter (fun y => key y == c)).map f)) =
        ks.map (fun c => if c = key x then
          jadd (f x) (jsum ((l.filter (fun y => key y == c)).map f))
        else jsum ((l.filter (fun y => key y == c)).map f)) := by
      refine List.map_congr_left (fun c _ => ?_)
      by_cases hc : key x = c
      · rw [List.filter_cons, if_pos (by simpa using hc), List.map_cons, jsum_cons,
          if_pos hc.symm]
      · rw [List.filter_cons, if_neg (by simpa using hc),
          if_neg (fun h => hc h.symm)]
    rw [hstep, jsum_map_ite hx hnd (f x)
        (fun c => jsum ((l.filter (fun y => key y == c)).map f)),
      ih ks hnd (fun y hy => hcov y (List.mem_cons_of_mem x hy)), List.map_cons, jsum_cons]

theorem sum_map_ite_nat {ks : List Nat} {k : Nat} (hk : k ∈ ks) (hnd : ks.Nodup)
    (a : ℕ) (g : Nat → ℕ) :
    (ks.map (fun c => if c = k then a + g c else g c)).sum = a + (ks.map g).sum := by
  induction ks with
  | nil => cases hk
  | cons y ys ih =>
    rcases List.nodup_cons.1 hnd with ⟨hy, hys⟩
    by_cases hyk : y = k
    · subst hyk
      have hmap : ys.map (fun c => if c = y then a + g c else g c) = ys.map g :=
        List.map_congr_left (fun c hc => by
          have : c ≠ y := fun hcy => hy (hcy ▸ hc)
          simp [this])
      rw [List.map_cons, List.map_cons, List.sum_cons, List.sum_cons, hmap, if_pos rfl,
        Nat.add_assoc]
    · have hk' : k ∈ ys := by
        rcases List.mem_cons.1 hk with h | h
        · exact absurd h.symm hyk
        · exact h
      rw [List.map_cons, List.map_cons, List.sum_cons, List.sum_cons, if_neg hyk, ih hk' hys]
      omega

theorem length_fiberwise {α : Type} (key : α → Nat) :
    ∀ (l : List α) (ks : List Nat), ks.Nodup → (∀ x ∈ l, key x ∈ ks) →
    (ks.map (fun c => (l.filter (fun x => key x == c)).length)).sum = l.length := by
  intro l
  induction l with
  | nil =>
    intro ks _ _
    simp
  | cons x l ih =>
    intro ks hnd hcov
    have hx : key x ∈ ks := hcov x (List.mem_cons_self x l)
    have hstep : ks.map (fun c => ((x :: l).filter (fun y => key y == c)).length) =
        ks.map (fun c => if c = key x then
          1 + (l.filter (fun y => key y == c)).length
        else (l.filter (fun y => key y == c)).length) := by
      refine List.map_congr_left (fun c _ => ?_)
      by_cases hc : key x = c
      · rw [List.filter_cons, if_pos (by simpa using hc), List.length_cons, if_pos hc.symm]
        omega
      · rw [List.filter_cons, if_neg (by simpa using hc), if_neg (fun h => hc h.symm)]
    rw [hstep, sum_map_ite_nat hx hnd 1 (fun c => (l.filter (fun y => key y == c)).length),
      ih ks hnd (fun y hy => hcov y (List.mem_cons_of_mem x hy)), List.length_cons]
    omega

/-! ## Evaluation lemmas for concrete inputs -/

theorem timeToMinutes_empty : timeToMinutes "" = none := by decide

theorem ne_empty_of_timeToMinutes {s : String} {a : ℤ} (h : timeToMinutes s = some a) :
    s ≠ "" := by
  intro he
  rw [he, timeToMinutes_empty] at h
  exact Option.noConfusion h

theorem jmax0_nonneg {x : JSNum} {q : ℚ} (h : jmax0 x = some q) : 0 ≤ q := by
  cases x with
  | none => exact Option.noConfusion h
  | some a =>
    simp only [jmax0, Option.some.injEq] at h
    rw [← h]
    exact le_max_left 0 a

theorem tm0800 : timeToMinutes "08:00" = some 480 := by decide
theorem tm0830 : timeToMinutes "08:30" = some 510 := by decide
theorem tm0900 : timeToMinutes "09:00" = some 540 := by decide
theorem tm1200 : timeToMinutes "12:00" = some 720 := by decide
theorem tm1300 : timeToMinutes "13:00" = some 780 := by decide
theorem tm1630 : timeToMinutes "16:30" = some 990 := by decide
theorem tm1700 : timeToMinutes "17:00" = some 1020 := by decide
theorem tm1800 : timeToMinutes "18:00" = some 1080 := by decide
theorem pf142 : jsParseFloat "142.00" = some 142 := by
  simp [jsParseFloat, show parseDecimal "142.00" = some (142, some (0, 2)) from by decide]
theorem pf284 : jsParseFloat "284.00" = some 284 := by
  simp [jsParseFloat, show parseDecimal "284.00" = some (284, some (0, 2)) from by decide]
theorem pf100 : jsParseFloat "100" = some 100 := by
  simp [jsParseFloat, show parseDecimal "100" = some (100, none) from by decide]

/-! ## Claims -/

/-- **C1.** For every pair of well-formed `HH:MM` start and end times with
start earlier than end, and optionally a well-formed break pair strictly
inside the work interval, both `MemStorage.calculateHoursAndValue` and
`DatabaseStorage.calculateHours` return exactly
`((end − start) − (breakEnd − breakStart)) / 60` hours, and
`(end − start) / 60` when no break is given.  Well-formedness is expressed
by the time's successful conversion to minutes since midnight. -/
theorem duration_calculation_exact (s e : String) (a b : ℤ)
    (hs : timeToMinutes s = some a) (he : timeToMinutes e = some b)
    (hab : a < b) (rate : String) :
    (calculateHoursAndValue s e rate none none).1 = some (((b - a : ℤ) : ℚ) / 60) ∧
    calculateHours s e none none = some (((b - a : ℤ) : ℚ) / 60) ∧
    ∀ (bs be : String) (c d : ℤ), timeToMinutes bs = some c → timeToMinutes be = some d →
      a < c → c < d → d < b →
      (calculateHoursAndValue s e rate (some bs) (some be)).1 =
        some ((((b - a) - (d - c) : ℤ) : ℚ) / 60) ∧
      calculateHours s e (some bs) (some be) =
        some ((((b - a) - (d - c) : ℤ) : ℚ) / 60) := by
  have hab' : (a : ℚ) ≤ (b : ℚ) := by exact_mod_cast le_of_lt hab
  have hnn : (0 : ℚ) ≤ ((b : ℚ) - (a : ℚ)) / 60 :=
    div_nonneg (by linarith) (by norm_num)
  refine ⟨?_, ?_, ?_⟩
  · simp [calculateHoursAndValue, hs, he, strTruthy, jsubM, jdiv60, jmax0,
      max_eq_right hnn]
  · simp [calculateHours, hs, he, strTruthy, jsubM, jdiv60]
  · intro bs be c d hbs hbe hac hcd hdb
    have hbs' : bs ≠ "" := ne_empty_of_timeToMinutes hbs
    have hbe' : be ≠ "" := ne_empty_of_timeToMinutes hbe
    have hdb' : (d : ℚ) ≤ (b : ℚ) := by exact_mod_cast le_of_lt hdb
    have hac' : (a : ℚ) ≤ (c : ℚ) := by exact_mod_cast le_of_lt hac
    have hnn' : (0 : ℚ) ≤ ((b : ℚ) - (a : ℚ) - ((d : ℚ) - (c : ℚ))) / 60 :=
      div_nonneg (by linarith) (by norm_num)
    constructor
    · simp [calculateHoursAndValue, hs, he, hbs, hbe, strTruthy, hbs', hbe',
        jsubM, jdiv60, jmax0, max_eq_right hnn']
    · simp [calculateHours, hs, he, hbs, hbe, strTruthy, hbs', hbe', jsubM, jdiv60]

/-- Witness for C1 at the spec's example: start `08:00`, end `17:00`,
break `12:00`–`13:00` yields exactly 8 hours in both implementations, and
9 hours without the break. -/
theorem duration_calculation_exact_witness :
    timeToMinutes "08:00" = some 480 ∧ timeToMinutes "17:00" = some 1020 ∧
    (480 : ℤ) < 1020 ∧
    (calculateHoursAndValue "08:00" "17:00" "142.00" (some "12:00") (some "13:00")).1 =
      some 8 ∧
    calculateHours "08:00" "17:00" (some "12:00") (some "13:00") = some 8 ∧
    (calculateHoursAndValue "08:00" "17:00" "142.00" none none).1 = some 9 := by
  have h := duration_calculation_exact "08:00" "17:00" 480 1020 tm0800 tm1700
    (by norm_num) "142.00"
  have hb := h.2.2 "12:00" "13:00" 720 780 tm1200 tm1300 (by norm_num) (by norm_num)
    (by norm_num)
  refine ⟨tm0800, tm1700, by norm_num, ?_, ?_, ?_⟩
  · rw [hb.1]; norm_num
  · rw [hb.2]; norm_num
  · rw [h.1]; norm_num

/-- C2 counterexample: `DatabaseStorage.calculateHours` does **not** clamp a
negative duration to zero — for end `08:00` earlier than start `17:00` it
returns −9 hours, not 0. -/
theorem no_clamp_counterexample :
    calculateHours "17:00" "08:00" none none = some (-9) ∧
    calculateHours "17:00" "08:00" none none ≠ some 0 := by
  have : calculateHours "17:00" "08:00" none none = some (-9) := by
    simp [calculateHours, tm0800, tm1700, strTruthy, jsubM, jdiv60]
    norm_num
  exact ⟨this, by rw [this]; intro h; exact absurd (Option.some.inj h) (by norm_num)⟩

/-- **C2 (amended).** `MemStorage.calculateHoursAndValue` clamps: its hours
are non-negative for every input, and an end time earlier than the start
time yields exactly 0 hours.  `DatabaseStorage.calculateHours` performs no
clamp: for end earlier than start it returns the negative raw duration
`(end − start) / 60 < 0`. -/
theorem clamp_only_in_mem_storage :
    (∀ (s e r : String) (bs be : Option String) (q : ℚ),
      (calculateHoursAndValue s e r bs be).1 = some q → 0 ≤ q) ∧
    (∀ (s e r : String) (a b : ℤ), timeToMinutes s = some a → timeToMinutes e = some b →
      b < a → (calculateHoursAndValue s e r none none).1 = some 0) ∧
    (∀ (s e : String) (a b : ℤ), timeToMinutes s = some a → timeToMinutes e = some b →
      b < a →
      calculateHours s e none none = some (((b - a : ℤ) : ℚ) / 60) ∧
      ((b - a : ℤ) : ℚ) / 60 < 0) := by
  refine ⟨?_, ?_, ?_⟩
  · intro s e r bs be q hq
    have : (calculateHoursAndValue s e r bs be).1 =
        jmax0 (jdiv60 (if strTruthy bs && strTruthy be then
          jsubM (jsubM (timeToMinutes e) (timeToMinutes s))
            (jsubM (timeToMinutes (be.getD "")) (timeToMinutes (bs.getD "")))
        else jsubM (timeToMinutes e) (timeToMinutes s))) := by
      simp only [calculateHoursAndValue]
    rw [this] at hq
    exact jmax0_nonneg hq
  · intro s e r a b hs he hba
    have hba' : (b : ℚ) ≤ (a : ℚ) := by exact_mod_cast le_of_lt hba
    have hneg : ((b : ℚ) - (a : ℚ)) / 60 ≤ 0 :=
      div_nonpos_of_nonpos_of_nonneg (by linarith) (by norm_num)
    simp [calculateHoursAndValue, hs, he, strTruthy, jsubM, jdiv60, jmax0,
      max_eq_left hneg]
  · intro s e a b hs he hba
    have hba' : (b : ℚ) < (a : ℚ) := by exact_mod_cast hba
    constructor
    · simp [calculateHours, hs, he, strTruthy, jsubM, jdiv60]
    · have : ((b - a : ℤ) : ℚ) < 0 := by push_cast; linarith
      exact div_neg_of_neg_of_pos this (by norm_num)

/-- Witness for the amended C2 at end `08:00` < start `17:00`. -/
theorem clamp_only_in_mem_storage_witness :
    (calculateHoursAndValue "17:00" "08:00" "142.00" none none).1 = some 0 ∧
    calculateHours "17:00" "08:00" none none = some (-9) := by
  have h := clamp_only_in_mem_storage
  have h2 := h.2.1 "17:00" "08:00" "142.00" 1020 480 tm1700 tm0800 (by norm_num)
  have h3 := h.2.2 "17:00" "08:00" 1020 480 tm1700 tm0800 (by norm_num)
  refine ⟨h2, ?_⟩
  rw [h3.1]; norm_num

/-- **C7.** The computed value is exactly hours × rate, and is linear in
the rate (doubling the parsed rate doubles the value), both in
`MemStorage.calculateHoursAndValue` and in the
`totalValue = totalHours * parseFloat(service.hourlyRate)` computation of
`DatabaseStorage.createTimeEntry`. -/
theorem value_is_hours_times_rate (s e : String) (bs be : Option String)
    (rs rs2 : String) (r h : ℚ)
    (hr : jsParseFloat rs = some r) (hr0 : 0 ≤ r)
    (hr2 : jsParseFloat rs2 = some (2 * r))
    (hh : (calculateHoursAndValue s e rs bs be).1 = some h) :
    (calculateHoursAndValue s e rs bs be).2 = some (h * r) ∧
    (calculateHoursAndValue s e rs2 bs be).2 = some (2 * (h * r)) ∧
    ∀ (getService : Nat → Option Service) (svc : Service) (nid : Nat)
      (ie : InsertTimeEntry) (te : TimeEntry) (hDb : ℚ),
      getService ie.serviceId = some svc → svc.hourlyRate = rs →
      calculateHours ie.startTime ie.endTime ie.breakStartTime ie.breakEndTime = some hDb →
      dbCreateTimeEntry getService nid ie = .ok te →
      te.totalHours = some hDb ∧ te.totalValue = some (hDb * r) := by
  have hval : (calculateHoursAndValue s e rs bs be).2 =
      jmul ((calculateHoursAndValue s e rs bs be).1) (jsParseFloat rs) := rfl
  have hval2 : (calculateHoursAndValue s e rs2 bs be).2 =
      jmul ((calculateHoursAndValue s e rs2 bs be).1) (jsParseFloat rs2) := rfl
  have hsame : (calculateHoursAndValue s e rs2 bs be).1 =
      (calculateHoursAndValue s e rs bs be).1 := rfl
  refine ⟨?_, ?_, ?_⟩
  · rw [hval, hh, hr]; simp [jmul]
  · rw [hval2, hsame, hh, hr2]
    simp [jmul]
    ring
  · intro getService svc nid ie te hDb hg hrate hhours hok
    simp only [dbCreateTimeEntry, hg] at hok
    have hte := (Except.ok.inj hok).symm
    subst hte
    rw [hrate] at *
    exact ⟨by simpa using hhours, by simp [hhours, hr, jmul]⟩

/-- Witness for C7: the spec's example, hours 8 at rate `142.00` gives
value 1136, and rate `284.00` gives 2272, in both implementations. -/
theorem value_is_hours_times_rate_witness :
    (calculateHoursAndValue "08:00" "17:00" "142.00" (some "12:00") (some "13:00")).2 =
      some 1136 ∧
    (calculateHoursAndValue "08:00" "17:00" "284.00" (some "12:00") (some "13:00")).2 =
      some 2272 ∧
    ∀ te : TimeEntry,
      dbCreateTimeEntry (fun i => if i = 7 then some ⟨7, "S1", 1, "svc", "142.00"⟩ else none) 1
        { date := "2024-05-01", consultantId := 2, clientId := 1, serviceId := 7
          sectorId := none, serviceTypeId := none, projectId := none
          startTime := "08:00", endTime := "17:00"
          breakStartTime := some "12:00", breakEndTime := some "13:00"
          description := none, activityCompleted := none, deliveryForecast := none
          actualDelivery := none, serviceLocation := none } = .ok te →
      te.totalHours = some 8 ∧ te.totalValue = some 1136 := by
  have hh : (calculateHoursAndValue "08:00" "17:00" "142.00"
      (some "12:00") (some "13:00")).1 = some 8 := by
    simp [calculateHoursAndValue, tm0800, tm1700, tm1200, tm1300, strTruthy,
      jsubM, jdiv60, jmax0]
    norm_num
  have hdb : calculateHours "08:00" "17:00" (some "12:00") (some "13:00") = some 8 := by
    simp [calculateHours, tm0800, tm1700, tm1200, tm1300, strTruthy, jsubM, jdiv60]
    norm_num
  have h := value_is_hours_times_rate "08:00" "17:00" (some "12:00") (some "13:00")
    "142.00" "284.00" 142 8 pf142 (by norm_num) (by rw [pf284]; norm_num) hh
  refine ⟨by rw [h.1]; norm_num, by rw [h.2.1]; norm_num, ?_⟩
  intro te hok
  have := h.2.2 (fun i => if i = 7 then some ⟨7, "S1", 1, "svc", "142.00"⟩ else none)
    ⟨7, "S1", 1, "svc", "142.00"⟩ 1 _ te 8 (by simp) rfl hdb hok
  exact ⟨this.1, by rw [this.2]; norm_num⟩

theorem jmul_none (x : JSNum) : jmul none x = none := rfl

theorem iso0900 : isoTimeToMinutes "09:00" = some 540 := by decide
theorem iso1700 : isoTimeToMinutes "17:00" = some 1020 := by decide

/-- **C4.** The claim says every code path computing a monetary value from
an entry fails with `"Service not found"` when the service/rate is missing
and never silently defaults the rate to zero.  The code violates this:
`calculateEntryValue` in `server/routes.ts` computes
`hours * (parseFloat(entry.service.hourlyRate) || 0)`, so an absent or
unparsable hourly rate (here the empty string, which `parseFloat` turns
into `NaN`) silently yields a value of 0 for a regular 8-hour entry instead
of any error. -/
theorem rate_silently_defaulted_to_zero :
    jsParseFloat "" = none ∧
    calculateEntryHours "09:00" "17:00" none none = some 8 ∧
    calculateEntryValue "09:00" "17:00" none none "" = some 0 := by
  have hpf : jsParseFloat "" = none := by decide
  have hh : calculateEntryHours "09:00" "17:00" none none = some 8 := by
    simp [calculateEntryHours, iso0900, iso1700, strTruthy, jsubM, jdiv60]
    norm_num
  refine ⟨hpf, hh, ?_⟩
  simp [calculateEntryValue, hh, hpf, jsOrZero, jmul]

/-- **C6.** The claim says a malformed time string is rejected with a
validation error and a corrupt numeric result is never stored.  The code
violates this: `insertTimeEntrySchema` validates the time columns as bare
strings (`"abc"` passes), `timeToMinutes "abc"` is `NaN`, and
`DatabaseStorage.createTimeEntry` stores that `NaN` into `totalHours` and
`totalValue` without any error. -/
theorem malformed_time_validated_nowhere :
    insertTimeEntrySchemaParse rawAbc = .ok ieAbc ∧
    timeToMinutes "abc" = none ∧
    (dbCreateTimeEntry getSvc7 9 ieAbc).map (·.totalHours) = .ok none ∧
    (dbCreateTimeEntry getSvc7 9 ieAbc).map (·.totalValue) = .ok none := by
  have hch : calculateHours "abc" "17:00" none none = none := by decide
  refine ⟨by rfl, by decide, ?_, ?_⟩ <;>
    simp [dbCreateTimeEntry, getSvc7, ieAbc, hch, Except.map, jmul_none]

/-- **C9.** `MemStorage.createTimeEntry` with a service id absent from the
services map fails with exactly `"Service not found"` and the storage state
is returned unchanged: no time entry is added and the id counter is not
advanced. -/
theorem mem_create_missing_service_state_unchanged (s : MemState) (ie : InsertTimeEntry)
    (h : mapGet s.services ie.serviceId = none) :
    memCreateTimeEntry s ie = (.error "Service not found", s) ∧
    (memCreateTimeEntry s ie).2.timeEntries = s.timeEntries ∧
    (memCreateTimeEntry s ie).2.currentTimeEntryId = s.currentTimeEntryId := by
  have hmain : memCreateTimeEntry s ie = (.error "Service not found", s) := by
    simp [memCreateTimeEntry, h]
  exact ⟨hmain, by rw [hmain], by rw [hmain]⟩

/-- Witness for C9: creating against an empty services map. -/
theorem mem_create_missing_service_state_unchanged_witness :
    mapGet memEmpty.services ieAbc.serviceId = none ∧
    memCreateTimeEntry memEmpty ieAbc = (.error "Service not found", memEmpty) := by
  have h : mapGet memEmpty.services ieAbc.serviceId = none := rfl
  exact ⟨h, (mem_create_missing_service_state_unchanged memEmpty ieAbc h).1⟩

/-- **C3.** The claim says after every update that changes a time field the
stored derived fields equal the calculation on the entry's resulting start,
end, **break pair** and rate.  `MemStorage.updateTimeEntry` violates this:
updating only `endTime` of `entryBreak` (break `12:00`–`13:00`, rate
`"100"`) to `18:00` stores 10 hours — the recomputation drops the break —
while the calculation on the resulting fields gives 9; and an update that
only changes the break pair (to `12:00`–`14:00`) triggers no recomputation
at all, leaving the stale 8 hours where the calculation gives 7. -/
theorem mem_update_ignores_breaks :
    ((memUpdateTimeEntry memS0 5 updEnd18).1.map (·.totalHours)) = some (some 10) ∧
    (calculateHoursAndValue "08:00" "18:00" "100" (some "12:00") (some "13:00")).1 =
      some 9 ∧
    ((memUpdateTimeEntry memS0 5
        { breakStartTime := some (some "12:00"), breakEndTime := some (some "14:00") }).1.map
      (·.totalHours)) = some (some 8) ∧
    (calculateHoursAndValue "08:00" "17:00" "100" (some "12:00") (some "14:00")).1 =
      some 7 := by
  refine ⟨?_, ?_, ?_, ?_⟩
  · have hcalc : (calculateHoursAndValue "08:00" "18:00" "100" none none).1 = some 10 := by
      simp [calculateHoursAndValue, tm0800, tm1800, strTruthy, jsubM, jdiv60, jmax0]
      norm_num
    simp [memUpdateTimeEntry, memS0, updEnd18, mapGet, entryBreak, svc100, strTruthy,
      natTruthy, jsOrNat, jsOrStr, hcalc]
  · simp [calculateHoursAndValue, tm0800, tm1800, tm1200, tm1300, strTruthy, jsubM,
      jdiv60, jmax0]
    norm_num
  · simp [memUpdateTimeEntry, memS0, mapGet, entryBreak, strTruthy, natTruthy,
      applyUpdate]
  · simp [calculateHoursAndValue, tm0800, tm1700, tm1200,
      show timeToMinutes "14:00" = some 840 from by decide, strTruthy, jsubM,
      jdiv60, jmax0]
    norm_num

/-- **C10.** A `DatabaseStorage.updateTimeEntry` whose update data contains
none of `startTime`, `endTime`, `breakStartTime`, `breakEndTime`,
`serviceId` takes the direct-update branch: the result is the entry with
exactly the supplied fields replaced, and `totalHours` and `totalValue` are
untouched (the update type cannot even carry them). -/
theorem db_update_no_trigger_preserves_derived
    (getEntry : Nat → Option TimeEntry) (getService : Nat → Option Service)
    (id : Nat) (u : UpdateTimeEntry) (e : TimeEntry)
    (h1 : u.startTime = none) (h2 : u.endTime = none)
    (h3 : u.breakStartTime = none) (h4 : u.breakEndTime = none)
    (h5 : u.serviceId = none)
    (hget : getEntry id = some e) :
    dbUpdateTimeEntry getEntry getService id u = .ok (some (applyUpdate e u)) ∧
    (applyUpdate e u).totalHours = e.totalHours ∧
    (applyUpdate e u).totalValue = e.totalValue := by
  refine ⟨?_, rfl, rfl⟩
  simp [dbUpdateTimeEntry, h1, h2, h3, h4, h5, strTruthy, strFieldTruthy, natTruthy, hget]

/-- Witness for C10: a date-only update of `entryBreak` keeps its 8 hours
and value 800. -/
theorem db_update_no_trigger_preserves_derived_witness :
    updDateOnly.startTime = none ∧ updDateOnly.endTime = none ∧
    updDateOnly.breakStartTime = none ∧ updDateOnly.breakEndTime = none ∧
    updDateOnly.serviceId = none ∧ getEntry5 5 = some entryBreak ∧
    dbUpdateTimeEntry getEntry5 getSvc7 5 updDateOnly =
      .ok (some (applyUpdate entryBreak updDateOnly)) ∧
    (applyUpdate entryBreak updDateOnly).totalHours = some 8 ∧
    (applyUpdate entryBreak updDateOnly).date = "2024-06-01" := by
  have hget : getEntry5 5 = some entryBreak := by simp [getEntry5]
  have h := db_update_no_trigger_preserves_derived getEntry5 getSvc7 5 updDateOnly
    entryBreak rfl rfl rfl rfl rfl hget
  exact ⟨rfl, rfl, rfl, rfl, rfl, hget, h.1, by rw [h.2.1]; rfl, rfl⟩

theorem mem_of_getElem0 {α : Type} {l : List α} {a : α} (h : l[0]? = some a) : a ∈ l := by
  rcases List.getElem?_eq_some_iff.1 h with ⟨hlt, hget⟩
  exact hget ▸ List.getElem_mem hlt

theorem getElem0_of_ne_nil {α : Type} {l : List α} (h : l ≠ []) : ∃ a, l[0]? = some a := by
  cases l with
  | nil => exact absurd rfl h
  | cons x xs => exact ⟨x, by simp⟩

/-- C5 counterexample: a report over `memS0` — one 8-hour entry for client 1
while the clients map is empty.  `MemStorage.getReportData` drops the group
from `clientBreakdown` (the entry still counts in the grand totals), so the
per-group sums do not reach the grand totals. -/
theorem missing_client_group_dropped :
    (memGetReportData memS0 {}).totalHours = some 8 ∧
    (memGetReportData memS0 {}).totalEntries = 1 ∧
    (memGetReportData memS0 {}).clientBreakdown = [] ∧
    jsum ((memGetReportData memS0 {}).clientBreakdown.map (·.hours)) ≠
      (memGetReportData memS0 {}).totalHours := by
  have hrep : (memGetReportData memS0 {}).totalHours = some 8 ∧
      (memGetReportData memS0 {}).totalEntries = 1 ∧
      (memGetReportData memS0 {}).clientBreakdown = [] := by
    refine ⟨?_, ?_, ?_⟩ <;>
      simp [memGetReportData, memS0, entryBreak, entryMatchesFilters, strTruthy,
        natTruthy, jsum, jadd, jsDedup, mapGet, List.mergeSort_nil]
  refine ⟨hrep.1, hrep.2.1, hrep.2.2, ?_⟩
  rw [hrep.1, hrep.2.2]
  simp [jsum, jadd]

/-- **C5 (amended).** For `DatabaseStorage.getReportData` the per-group
sums of hours, value and entry counts over `clientBreakdown` always equal
the grand totals, even when an entry's client no longer exists (such
entries form a group named `'Unknown'`).  For `MemStorage.getReportData`
the same equalities hold **provided every stored entry's client exists in
the clients map**; a missing client's group is silently dropped from the
breakdown while its entries still count in the grand totals. -/
theorem report_group_sums_match_totals (rows : List DBRow) (f : ReportFilters)
    (s : MemState)
    (hcl : ∀ p ∈ s.timeEntries, (mapGet s.clients p.2.clientId).isSome = true) :
    (jsum ((dbGetReportData rows f).clientBreakdown.map (·.hours)) =
        (dbGetReportData rows f).totalHours ∧
      jsum ((dbGetReportData rows f).clientBreakdown.map (·.value)) =
        (dbGetReportData rows f).totalValue ∧
      ((dbGetReportData rows f).clientBreakdown.map (·.entries)).sum =
        (dbGetReportData rows f).totalEntries) ∧
    (jsum ((memGetReportData s f).clientBreakdown.map (·.hours)) =
        (memGetReportData s f).totalHours ∧
      jsum ((memGetReportData s f).clientBreakdown.map (·.value)) =
        (memGetReportData s f).totalValue ∧
      ((memGetReportData s f).clientBreakdown.map (·.entries)).sum =
        (memGetReportData s f).totalEntries) := by
  constructor
  · -- DatabaseStorage
    simp only [dbGetReportData]
    set entries := rows.filter (fun r => entryMatchesFilters f r.te) with hentries
    set uniq := jsDedup (entries.map (·.te.clientId)) with huniq
    set g : Nat → ClientGroup := fun cid =>
      let clientEntries := entries.filter (fun r => r.te.clientId == cid)
      { clientId := cid
        clientName := groupName clientEntries[0]?
        hours := jsum (clientEntries.map (·.te.totalHours))
        value := jsum (clientEntries.map (·.te.totalValue))
        entries := clientEntries.length } with hg
    have hcov : ∀ r ∈ entries, r.te.clientId ∈ uniq := fun r hr =>
      mem_jsDedup.2 (List.mem_map_of_mem _ hr)
    have hperm := List.mergeSort_perm (uniq.map g)
      (fun a b => decide (jsOrZero b.value ≤ jsOrZero a.value))
    refine ⟨?_, ?_, ?_⟩
    · rw [jsum_perm (hperm.map (·.hours)), List.map_map]
      exact jsum_fiberwise (fun r => r.te.clientId) (fun r => r.te.totalHours)
        entries uniq (nodup_jsDedup _) hcov
    · rw [jsum_perm (hperm.map (·.value)), List.map_map]
      exact jsum_fiberwise (fun r => r.te.clientId) (fun r => r.te.totalValue)
        entries uniq (nodup_jsDedup _) hcov
    · rw [(hperm.map (·.entries)).sum_eq, List.map_map]
      exact length_fiberwise (fun r => r.te.clientId) entries uniq (nodup_jsDedup _) hcov
  · -- MemStorage
    simp only [memGetReportData]
    set filtered := (s.timeEntries.map (·.2)).filter (entryMatchesFilters f) with hfiltered
    set ks := jsDedup (filtered.map (·.clientId)) with hks
    set g : Nat → Option ClientGroup := fun cid =>
      match mapGet s.clients cid with
      | none => none
      | some client =>
        let clientEntries := filtered.filter (fun e => e.clientId == cid)
        some
          { clientId := cid
            clientName := client.name
            hours := jsum (clientEntries.map (·.totalHours))
            value := jsum (clientEntries.map (·.totalValue))
            entries := clientEntries.length } with hgdef
    set h : Nat → ClientGroup := fun cid =>
      let clientEntries := filtered.filter (fun e => e.clientId == cid)
      { clientId := cid
        clientName := ((mapGet s.clients cid).map (·.name)).getD ""
        hours := jsum (clientEntries.map (·.totalHours))
        value := jsum (clientEntries.map (·.totalValue))
        entries := clientEntries.length } with hhdef
    have hmem_lookup : ∀ cid ∈ ks, ∃ cl, mapGet s.clients cid = some cl := by
      intro cid hcid
      rcases List.mem_map.1 (mem_jsDedup.1 hcid) with ⟨e, he, hec⟩
      have he' : e ∈ s.timeEntries.map (·.2) := (List.mem_filter.1 he).1
      rcases List.mem_map.1 he' with ⟨p, hp, hpe⟩
      have := hcl p hp
      rw [hpe, hec] at this
      exact Option.isSome_iff_exists.1 this
    have hfm : ks.filterMap g = ks.map h := by
      apply filterMap_congr_some
      intro cid hcid
      rcases hmem_lookup cid hcid with ⟨cl, hcl'⟩
      simp [hgdef, hhdef, hcl']
    have hcov : ∀ e ∈ filtered, e.clientId ∈ ks := fun e he =>
      mem_jsDedup.2 (List.mem_map_of_mem _ he)
    have hperm := List.mergeSort_perm (ks.filterMap g)
      (fun a b => decide (jsOrZero b.value ≤ jsOrZero a.value))
    rw [hfm] at hperm
    rw [hfm]
    refine ⟨?_, ?_, ?_⟩
    · rw [jsum_perm (hperm.map (·.hours)), List.map_map]
      exact jsum_fiberwise (·.clientId) (·.totalHours) filtered ks (nodup_jsDedup _) hcov
    · rw [jsum_perm (hperm.map (·.value)), List.map_map]
      exact jsum_fiberwise (·.clientId) (·.totalValue) filtered ks (nodup_jsDedup _) hcov
    · rw [(hperm.map (·.entries)).sum_eq, List.map_map]
      exact length_fiberwise (·.clientId) filtered ks (nodup_jsDedup _) hcov

/-- Witness for the amended C5: one entry for client 1, client 1 present in
the clients map, no filters. -/
theorem report_group_sums_match_totals_witness :
    jsum ((memGetReportData
        ⟨[(1, ⟨1, "C1", "Acme", "00", "a@b"⟩)], [(1, svc100)], [(5, entryBreak)], 6⟩
        {}).clientBreakdown.map (·.hours)) =
      (memGetReportData
        ⟨[(1, ⟨1, "C1", "Acme", "00", "a@b"⟩)], [(1, svc100)], [(5, entryBreak)], 6⟩
        {}).totalHours ∧
    jsum ((dbGetReportData [⟨entryBreak, some "Acme"⟩] {}).clientBreakdown.map (·.hours)) =
      (dbGetReportData [⟨entryBreak, some "Acme"⟩] {}).totalHours ∧
    ((dbGetReportData [⟨entryBreak, some "Acme"⟩] {}).clientBreakdown.map (·.entries)).sum =
      (dbGetReportData [⟨entryBreak, some "Acme"⟩] {}).totalEntries := by
  have h := report_group_sums_match_totals [⟨entryBreak, some "Acme"⟩] {}
    ⟨[(1, ⟨1, "C1", "Acme", "00", "a@b"⟩)], [(1, svc100)], [(5, entryBreak)], 6⟩
    (by decide)
  exact ⟨h.2.1, h.1.1, h.1.2.2⟩

theorem fiber_ne_nil {α : Type} (key : α → Nat) (l : List α) (c : Nat)
    (hc : c ∈ jsDedup (l.map key)) : l.filter (fun x => key x == c) ≠ [] := by
  rcases List.mem_map.1 (mem_jsDedup.1 hc) with ⟨x, hx, hkx⟩
  exact List.ne_nil_of_mem (List.mem_filter.2 ⟨hx, by simp [hkx]⟩)

/-- The pre-sort `clientBreakdown` of `MemStorage.getReportData` is
permutation-invariant in the (filtered) entry collection. -/
theorem mem_breakdown_core (clients : List (Nat × Client))
    {F₁ F₂ : List TimeEntry} (hF : F₁.Perm F₂) :
    ((jsDedup (F₁.map (fun e => e.clientId))).filterMap (fun cid =>
      (match mapGet clients cid with
      | none => none
      | some client => some
          { clientId := cid
            clientName := client.name
            hours := jsum ((F₁.filter (fun e => e.clientId == cid)).map
              (fun e => e.totalHours))
            value := jsum ((F₁.filter (fun e => e.clientId == cid)).map
              (fun e => e.totalValue))
            entries := (F₁.filter (fun e => e.clientId == cid)).length }
        : Option ClientGroup))).Perm
    ((jsDedup (F₂.map (fun e => e.clientId))).filterMap (fun cid =>
      (match mapGet clients cid with
      | none => none
      | some client => some
          { clientId := cid
            clientName := client.name
            hours := jsum ((F₂.filter (fun e => e.clientId == cid)).map
              (fun e => e.totalHours))
            value := jsum ((F₂.filter (fun e => e.clientId == cid)).map
              (fun e => e.totalValue))
            entries := (F₂.filter (fun e => e.clientId == cid)).length }
        : Option ClientGroup))) := by
  have hKs := jsDedup_perm (hF.map (fun e => e.clientId))
  have hgfun : ∀ cid : Nat,
      (match mapGet clients cid with
      | none => none
      | some client => some
          { clientId := cid
            clientName := client.name
            hours := jsum ((F₁.filter (fun e => e.clientId == cid)).map
              (fun e => e.totalHours))
            value := jsum ((F₁.filter (fun e => e.clientId == cid)).map
              (fun e => e.totalValue))
            entries := (F₁.filter (fun e => e.clientId == cid)).length }
        : Option ClientGroup) =
      (match mapGet clients cid with
      | none => none
      | some client => some
          { clientId := cid
            clientName := client.name
            hours := jsum ((F₂.filter (fun e => e.clientId == cid)).map
              (fun e => e.totalHours))
            value := jsum ((F₂.filter (fun e => e.clientId == cid)).map
              (fun e => e.totalValue))
            entries := (F₂.filter (fun e => e.clientId == cid)).length }
        : Option ClientGroup) := by
    intro cid
    have e1 := jsum_perm ((hF.filter (fun e => e.clientId == cid)).map
      (fun e => e.totalHours))
    have e2 := jsum_perm ((hF.filter (fun e => e.clientId == cid)).map
      (fun e => e.totalValue))
    have e3 := (hF.filter (fun e => e.clientId == cid)).length_eq
    cases hcg : mapGet clients cid with
    | none => rfl
    | some client =>
      dsimp only
      rw [e1, e2, e3]
  refine (hKs.filterMap _).trans ?_
  rw [List.filterMap_congr (fun cid _ => hgfun cid)]

/-- The pre-sort `clientBreakdown` of `DatabaseStorage.getReportData` is
permutation-invariant in the (filtered) row collection, provided rows of
one client carry one joined name (which the SQL join guarantees). -/
theorem db_breakdown_core {D₁ D₂ : List DBRow} (hD : D₁.Perm D₂)
    (hjoin : ∀ r₁ ∈ D₁, ∀ r₂ ∈ D₁, r₁.te.clientId = r₂.te.clientId →
      r₁.clientName = r₂.clientName) :
    ((jsDedup (D₁.map (fun r => r.te.clientId))).map (fun cid =>
      ({ clientId := cid
         clientName := groupName (D₁.filter (fun r => r.te.clientId == cid))[0]?
         hours := jsum ((D₁.filter (fun r => r.te.clientId == cid)).map
           (fun r => r.te.totalHours))
         value := jsum ((D₁.filter (fun r => r.te.clientId == cid)).map
           (fun r => r.te.totalValue))
         entries := (D₁.filter (fun r => r.te.clientId == cid)).length }
        : ClientGroup))).Perm
    ((jsDedup (D₂.map (fun r => r.te.clientId))).map (fun cid =>
      ({ clientId := cid
         clientName := groupName (D₂.filter (fun r => r.te.clientId == cid))[0]?
         hours := jsum ((D₂.filter (fun r => r.te.clientId == cid)).map
           (fun r => r.te.totalHours))
         value := jsum ((D₂.filter (fun r => r.te.clientId == cid)).map
           (fun r => r.te.totalValue))
         entries := (D₂.filter (fun r => r.te.clientId == cid)).length }
        : ClientGroup))) := by
  have hU := jsDedup_perm (hD.map (fun r => r.te.clientId))
  refine (hU.map _).trans ?_
  have hg : ∀ cid ∈ jsDedup (D₂.map (fun r => r.te.clientId)),
      ({ clientId := cid
         clientName := groupName (D₁.filter (fun r => r.te.clientId == cid))[0]?
         hours := jsum ((D₁.filter (fun r => r.te.clientId == cid)).map
           (fun r => r.te.totalHours))
         value := jsum ((D₁.filter (fun r => r.te.clientId == cid)).map
           (fun r => r.te.totalValue))
         entries := (D₁.filter (fun r => r.te.clientId == cid)).length }
        : ClientGroup) =
      ({ clientId := cid
         clientName := groupName (D₂.filter (fun r => r.te.clientId == cid))[0]?
         hours := jsum ((D₂.filter (fun r => r.te.clientId == cid)).map
           (fun r => r.te.totalHours))
         value := jsum ((D₂.filter (fun r => r.te.clientId == cid)).map
           (fun r => r.te.totalValue))
         entries := (D₂.filter (fun r => r.te.clientId == cid)).length }
        : ClientGroup) := by
    intro cid hcid
    have hfib := hD.filter (fun r => r.te.clientId == cid)
    have e1 := jsum_perm (hfib.map (fun r => r.te.totalHours))
    have e2 := jsum_perm (hfib.map (fun r => r.te.totalValue))
    have e3 := hfib.length_eq
    have hcid₁ : cid ∈ jsDedup (D₁.map (fun r => r.te.clientId)) :=
      mem_jsDedup.2 ((hD.map (fun r => r.te.clientId)).mem_iff.2 (mem_jsDedup.1 hcid))
    have hne₁ := fiber_ne_nil (fun r => r.te.clientId) D₁ cid hcid₁
    have hne₂ := fiber_ne_nil (fun r => r.te.clientId) D₂ cid hcid
    obtain ⟨r₁, hr₁⟩ := getElem0_of_ne_nil hne₁
    obtain ⟨r₂, hr₂⟩ := getElem0_of_ne_nil hne₂
    have hm₁ := List.mem_filter.1 (mem_of_getElem0 hr₁)
    have hm₂ := List.mem_filter.1 (mem_of_getElem0 hr₂)
    have hname : r₁.clientName = r₂.clientName := by
      refine hjoin r₁ hm₁.1 r₂ (hD.mem_iff.2 hm₂.1) ?_
      have b1 : r₁.te.clientId = cid := by simpa using hm₁.2
      have b2 : r₂.te.clientId = cid := by simpa using hm₂.2
      rw [b1, b2]
    rw [e1, e2, e3, hr₁, hr₂, show groupName (some r₁) = groupName (some r₂) from by
      simp [groupName, hname]]
  rw [List.map_congr_left hg]

/-- **C8.** `getReportData` is order-independent: permuting the stored
entry collection (with the same clients map, for `MemStorage`) or the
joined row collection (for `DatabaseStorage`, whose join gives all rows of
one client the same name) leaves all grand totals unchanged and produces
the same multiset of client groups — hence identical per-group sums of
hours, value and entry counts for each client group. -/
theorem report_aggregation_order_independent (s₁ s₂ : MemState) (f : ReportFilters)
    (hc : s₁.clients = s₂.clients)
    (hperm : (s₁.timeEntries.map (·.2)).Perm (s₂.timeEntries.map (·.2)))
    (rows₁ rows₂ : List DBRow) (hrperm : rows₁.Perm rows₂)
    (hjoin : ∀ r₁ ∈ rows₁, ∀ r₂ ∈ rows₁, r₁.te.clientId = r₂.te.clientId →
      r₁.clientName = r₂.clientName) :
    ((memGetReportData s₁ f).totalHours = (memGetReportData s₂ f).totalHours ∧
     (memGetReportData s₁ f).totalValue = (memGetReportData s₂ f).totalValue ∧
     (memGetReportData s₁ f).totalEntries = (memGetReportData s₂ f).totalEntries ∧
     (memGetReportData s₁ f).totalClients = (memGetReportData s₂ f).totalClients ∧
     ((memGetReportData s₁ f).clientBreakdown).Perm
       ((memGetReportData s₂ f).clientBreakdown)) ∧
    ((dbGetReportData rows₁ f).totalHours = (dbGetReportData rows₂ f).totalHours ∧
     (dbGetReportData rows₁ f).totalValue = (dbGetReportData rows₂ f).totalValue ∧
     (dbGetReportData rows₁ f).totalEntries = (dbGetReportData rows₂ f).totalEntries ∧
     (dbGetReportData rows₁ f).totalClients = (dbGetReportData rows₂ f).totalClients ∧
     ((dbGetReportData rows₁ f).clientBreakdown).Perm
       ((dbGetReportData rows₂ f).clientBreakdown)) := by
  constructor
  · obtain ⟨c₁, sv₁, t₁, n₁⟩ := s₁
    obtain ⟨c₂, sv₂, t₂, n₂⟩ := s₂
    dsimp only at hc hperm ⊢
    subst hc
    have hF := hperm.filter (entryMatchesFilters f)
    refine ⟨jsum_perm (hF.map (fun e => e.totalHours)),
      jsum_perm (hF.map (fun e => e.totalValue)),
      hF.length_eq,
      (jsDedup_perm (hF.map (fun (e : TimeEntry) => e.clientId))).length_eq, ?_⟩
    have hb := mem_breakdown_core c₁ hF
    exact ((List.mergeSort_perm _ _).trans hb).trans (List.mergeSort_perm _ _).symm
  · have hE := hrperm.filter (fun r => entryMatchesFilters f r.te)
    have hjoinE : ∀ r₁ ∈ rows₁.filter (fun r => entryMatchesFilters f r.te),
        ∀ r₂ ∈ rows₁.filter (fun r => entryMatchesFilters f r.te),
        r₁.te.clientId = r₂.te.clientId → r₁.clientName = r₂.clientName :=
      fun r₁ h₁ r₂ h₂ => hjoin r₁ (List.mem_filter.1 h₁).1 r₂ (List.mem_filter.1 h₂).1
    refine ⟨jsum_perm (hE.map (fun r => r.te.totalHours)),
      jsum_perm (hE.map (fun r => r.te.totalValue)),
      hE.length_eq,
      (jsDedup_perm (hE.map (fun (r : DBRow) => r.te.clientId))).length_eq, ?_⟩
    have hb := db_breakdown_core hE hjoinE
    exact ((List.mergeSort_perm _ _).trans hb).trans (List.mergeSort_perm _ _).symm

/-- Witness for C8: swapping two entries (clients 1 and 2) leaves totals
and group multiset unchanged in both implementations. -/
theorem report_aggregation_order_independent_witness :
    (memGetReportData ⟨[], [], [(5, entryBreak), (6, entryPlain)], 7⟩ {}).totalHours =
      (memGetReportData ⟨[], [], [(6, entryPlain), (5, entryBreak)], 7⟩ {}).totalHours ∧
    ((memGetReportData ⟨[], [], [(5, entryBreak), (6, entryPlain)], 7⟩ {}).clientBreakdown).Perm
      ((memGetReportData ⟨[], [], [(6, entryPlain), (5, entryBreak)], 7⟩ {}).clientBreakdown) ∧
    (dbGetReportData [⟨entryBreak, some "Acme"⟩, ⟨entryPlain, some "Beta"⟩] {}).totalHours =
      (dbGetReportData [⟨entryPlain, some "Beta"⟩, ⟨entryBreak, some "Acme"⟩] {}).totalHours ∧
    ((dbGetReportData [⟨entryBreak, some "Acme"⟩, ⟨entryPlain, some "Beta"⟩] {}).clientBreakdown).Perm
      ((dbGetReportData [⟨entryPlain, some "Beta"⟩, ⟨entryBreak, some "Acme"⟩] {}).clientBreakdown) := by
  have h := report_aggregation_order_independent
    ⟨[], [], [(5, entryBreak), (6, entryPlain)], 7⟩
    ⟨[], [], [(6, entryPlain), (5, entryBreak)], 7⟩ {}
    rfl
    (List.Perm.swap entryPlain entryBreak [])
    [⟨entryBreak, some "Acme"⟩, ⟨entryPlain, some "Beta"⟩]
    [⟨entryPlain, some "Beta"⟩, ⟨entryBreak, some "Acme"⟩]
    (List.Perm.swap (⟨entryPlain, some "Beta"⟩ : DBRow) (⟨entryBreak, some "Acme"⟩ : DBRow) [])
    (by decide)
  exact ⟨h.1.1, h.1.2.2.2.2, h.2.1, h.2.2.2.2.2⟩
